import Mathlib

/-!
Shallow embedding of the playback core of the `rmus` terminal music player
(src/audio.rs, src/library.rs, src/main.rs), together with theorems settling
the specification claims about it.

Modelling conventions:
* `std::time::Instant` values are rationals (seconds on an abstract wall
  clock); every operation that calls `Instant::now()` in the source takes an
  explicit `now : ℚ` argument.
* The rodio hardware sink is modelled by the observable state the source
  reads or writes: whether it still holds queued audio (`hasAudio`, the
  negation of `sink.empty()`), and whether it is paused.
* File opening and decoding (`std::fs::File::open` / `rodio::Decoder::new`)
  are abstracted by an oracle `fs : String → FileRes` mapping a path to the
  outcome of the open/decode pipeline.
* A Rust panic (`unwrap`, out-of-bounds index) is modelled by `none` in an
  `Option`-valued result.
* `rodio::OutputStream` is a pure resource handle with no observable state
  read by the source, so it is omitted from the state record.
-/

namespace Rmus

/-- Outcome of opening and decoding one file, abstracting the file system
and the rodio decoder: `File::open` fails, `Decoder::new` fails, or both
succeed. -/
inductive FileRes where
  | openFail
  | decodeFail
  | ok
deriving DecidableEq

/-- Typed playback error returned by `AudioInterface::play`
(`std::io::Error` with kind `NotFound`-ish propagated by `?`, or
`InvalidData` built from the decoder error). -/
inductive PlayError where
  | openError
  | decodeError
deriving DecidableEq

/-- `AudioFile` from src/audio.rs: one playable file with display metadata.
The f64 duration is modelled as a rational. -/
structure AudioFile where
  path : String
  title : String
  artist : String
  year : Int
  album : String
  duration : ℚ
deriving DecidableEq

/-- Observable state of the rodio `Sink`: `hasAudio` is the negation of
`sink.empty()`, `paused` reflects `sink.pause()` / `sink.play()`. -/
structure Sink where
  hasAudio : Bool
  paused : Bool
deriving DecidableEq

/-- `sink.stop()`: discards all buffered audio, so the sink reports empty. -/
def Sink.stop (s : Sink) : Sink :=
  { s with hasAudio := false }

/-- `sink.pause()`. -/
def Sink.pause (s : Sink) : Sink :=
  { s with paused := true }

/-- `sink.play()`. -/
def Sink.play (s : Sink) : Sink :=
  { s with paused := false }

/-- `sink.append(source)`: the sink now holds queued audio. -/
def Sink.append (s : Sink) : Sink :=
  { s with hasAudio := true }

/-- `sink.empty()`. -/
def Sink.empty (s : Sink) : Bool :=
  !s.hasAudio

/-- `Track` from src/audio.rs: the transport clock. `start_time` and the
optional `pause_time` are instants; `pause_duration` is accumulated paused
seconds. -/
structure Track where
  start_time : ℚ
  pause_time : Option ℚ
  pause_duration : ℚ
deriving DecidableEq

/-- `Track::new()` at instant `now`. -/
def Track.new (now : ℚ) : Track :=
  ⟨now, none, 0⟩

/-- `Track::toggle_pause`: if paused, add `pause_time.elapsed()` (that is,
`now − pause_time`) to the accumulated pause and clear the pause instant;
otherwise record `now` as the pause instant. -/
def Track.toggle_pause (t : Track) (now : ℚ) : Track :=
  match t.pause_time with
  | some time =>
      { t with pause_duration := t.pause_duration + (now - time),
               pause_time := none }
  | none => { t with pause_time := some now }

/-- `Track::time`: elapsed playback seconds at instant `now`.
`start_time.elapsed()` is `now − start_time` and `time.elapsed()` is
`now − time`. -/
def Track.time (t : Track) (now : ℚ) : ℚ :=
  match t.pause_time with
  | none => (now - t.start_time) - t.pause_duration
  | some time => (now - t.start_time) - (now - time) - t.pause_duration

/-- `Track::reset` at instant `now`. -/
def Track.reset (_t : Track) (now : ℚ) : Track :=
  ⟨now, none, 0⟩

/-- Fold a list of toggle instants through `Track.toggle_pause`; used to
state the pause/resume-cycle accounting property. -/
def Track.applyToggles (t : Track) (ts : List ℚ) : Track :=
  match ts with
  | [] => t
  | x :: rest => (t.toggle_pause x).applyToggles rest

/-- Total paused time of a list of toggle instants, as observed at `now`:
consecutive pairs are closed pause intervals, a trailing unmatched toggle is
a pause still open at `now`. -/
def pausedSum (ts : List ℚ) (now : ℚ) : ℚ :=
  match ts with
  | [] => 0
  | [t] => now - t
  | t1 :: t2 :: rest => (t2 - t1) + pausedSum rest now

/-- `Devices` from src/audio.rs. Hardware enumeration (cpal) is abstracted:
the constructor receives the list of named device handles, each represented
by its name. -/
structure Devices where
  devices : List String
  device_names : List String
  current_device : Nat
deriving DecidableEq

/-- `Devices::new`: keeps the enumerated devices and their names, stores the
externally supplied current index unvalidated. -/
def Devices.new (device_list : List String) (curr_device : Nat) : Devices :=
  ⟨device_list, device_list, curr_device⟩

/-- `Devices::get_device_by_index`: `&self.devices[index]`; the out-of-range
panic of the Rust index operation is `none`. -/
def Devices.get_device_by_index (d : Devices) (index : Nat) : Option String :=
  d.devices.get? index

/-- `Devices::get_current_device`. -/
def Devices.get_current_device (d : Devices) : Nat :=
  d.current_device

/-- The device-selection prefix of `main` (src/main.rs lines 17–22): read
the configured index from settings, build the registry, then look the device
up by that same index. `none` is the startup panic. -/
def main_select_device (enumerated : List String) (configured : Nat) :
    Option String :=
  (Devices.new enumerated configured).get_device_by_index configured

/-- `AudioInterface` from src/audio.rs: queue, currently playing descriptor,
pause flag, transport clock, sink and device registry (the output stream
handle carries no observable state). -/
structure AudioInterface where
  devices : Devices
  queue : List AudioFile
  currently_playing : Option AudioFile
  pause : Bool
  track : Track
  sink : Sink
deriving DecidableEq

/-- `AudioInterface::new` at instant `now`. -/
def AudioInterface.new (devices : Devices) (sink : Sink) (now : ℚ) :
    AudioInterface :=
  { devices := devices
    queue := []
    currently_playing := none
    pause := false
    track := Track.new now
    sink := sink }

/-- `AudioInterface::get_paused`. -/
def AudioInterface.get_paused (s : AudioInterface) : Bool :=
  s.pause

/-- `AudioInterface::get_next`: read-only view of the queue head. -/
def AudioInterface.get_next (s : AudioInterface) : Option AudioFile :=
  s.queue.head?

/-- `AudioInterface::play`: stop the sink, open the file, decode it, append
the decoded source to the sink. Returns the updated sink (the Rust method
mutates the sink through interior mutability) or the typed error. -/
def AudioInterface.play (fs : String → FileRes) (s : AudioInterface)
    (file : String) : Except PlayError Sink :=
  let sink := s.sink.stop
  match fs file with
  | FileRes.openFail => Except.error PlayError.openError
  | FileRes.decodeFail => Except.error PlayError.decodeError
  | FileRes.ok => Except.ok sink.append

/-- `AudioInterface::play_next` (the internal advance): pop the queue head;
if present, set it currently playing, reset the clock, clear the pause flag
and resume the sink if paused, then decode-and-play it. The source calls
`.unwrap()` on the play result, so a play error is a panic: `none`. -/
def AudioInterface.play_next (fs : String → FileRes) (now : ℚ)
    (s : AudioInterface) : Option AudioInterface :=
  match s.queue with
  | [] => some s
  | next :: rest =>
    let s1 : AudioInterface :=
      { s with queue := rest
               currently_playing := some next
               track := s.track.reset now }
    let s2 : AudioInterface :=
      if s1.pause then { s1 with pause := false, sink := s1.sink.play }
      else s1
    match s2.play fs next.path with
    | Except.ok sink => some { s2 with sink := sink }
    | Except.error _ => none

/-- `AudioInterface::append_to_queue` (enqueue): drain the given list onto
the queue tail; if nothing is currently playing, immediately advance. -/
def AudioInterface.append_to_queue (fs : String → FileRes) (now : ℚ)
    (s : AudioInterface) (new_queue : List AudioFile) :
    Option AudioInterface :=
  let s1 : AudioInterface := { s with queue := s.queue ++ new_queue }
  if s1.currently_playing.isNone then s1.play_next fs now else some s1

/-- `AudioInterface::hard_clear_queue` (clear_and_stop): empty the queue,
stop the sink, clear currently playing. -/
def AudioInterface.hard_clear_queue (s : AudioInterface) : AudioInterface :=
  { s with queue := [], sink := s.sink.stop, currently_playing := none }

/-- `AudioInterface::handle_queue` (poll): if the sink is empty and nothing
is recorded playing, load the queue head as currently playing and advance;
if the sink is empty and something is recorded playing, the track finished
naturally: clear currently playing. -/
def AudioInterface.handle_queue (fs : String → FileRes) (now : ℚ)
    (s : AudioInterface) : Option AudioInterface :=
  if s.sink.empty && s.currently_playing.isNone then
    let s1 : AudioInterface := { s with currently_playing := s.get_next }
    s1.play_next fs now
  else if s.sink.empty && s.currently_playing.isSome then
    some { s with currently_playing := none }
  else
    some s

/-- `AudioInterface::toggle_pause`: toggle the clock, flip the flag, pause
or resume the sink accordingly. -/
def AudioInterface.toggle_pause (now : ℚ) (s : AudioInterface) :
    AudioInterface :=
  let s1 : AudioInterface :=
    { s with track := s.track.toggle_pause now, pause := !s.pause }
  if s1.pause then { s1 with sink := s1.sink.pause }
  else { s1 with sink := s1.sink.play }

/-- The Controller invariant of the spec: the pause flag is true iff the
transport clock is in its paused sub-state (a pause instant is recorded). -/
def pauseClockInv (s : AudioInterface) : Prop :=
  s.pause = s.track.pause_time.isSome

/-- `LibraryWindow::get_wrapped_music_list` (src/library.rs): split the list
at index `i` with `get(0..i)` / `get(i..)` — each yielding the empty slice
via `unwrap_or(&[])` when `i` exceeds the length — and return second half
followed by first half. -/
def get_wrapped_music_list (music_list : List AudioFile) (i : Nat) :
    List AudioFile :=
  let first_half := if i ≤ music_list.length then music_list.take i else []
  let second_half := if i ≤ music_list.length then music_list.drop i else []
  second_half ++ first_half

/-! Concrete fixtures used by counterexamples and witnesses. -/

/-- A file-system oracle on which every file opens and decodes. -/
def fsAllOk : String → FileRes := fun _ => FileRes.ok

/-- A file-system oracle on which the decoder rejects every file. -/
def fsDecodeFail : String → FileRes := fun _ => FileRes.decodeFail

/-- A registry with a single enumerated output device. -/
def devicesOne : Devices := Devices.new ["default"] 0

/-- Sample track descriptors. -/
def fileA : AudioFile := ⟨"a.mp3", "A", "artistA", 2001, "albumA", 3⟩

def fileB : AudioFile := ⟨"b.mp3", "B", "artistB", 2002, "albumB", 4⟩

def fileC : AudioFile := ⟨"c.mp3", "C", "artistC", 2003, "albumC", 5⟩

def fileD : AudioFile := ⟨"d.mp3", "D", "artistD", 2004, "albumD", 6⟩

/-- A freshly constructed, fully idle controller. -/
def idleEmpty : AudioInterface := AudioInterface.new devicesOne ⟨false, false⟩ 0

/-- A controller with nothing currently playing but a non-empty queue — the
state reached after a natural completion was observed by `poll` but before
the next advancement tick. -/
def idleWithQueue : AudioInterface := { idleEmpty with queue := [fileA] }

/-- A paused controller mid-session. -/
def sPaused : AudioInterface :=
  { devices := devicesOne
    queue := [fileA, fileB]
    currently_playing := some fileC
    pause := true
    track := ⟨0, some 2, 1⟩
    sink := ⟨true, true⟩ }

/-- A controller whose current track just finished naturally: the sink is
empty but a track is still recorded as playing. -/
def sCompleted : AudioInterface :=
  { devices := devicesOne
    queue := [fileB]
    currently_playing := some fileA
    pause := false
    track := ⟨0, none, 0⟩
    sink := ⟨false, false⟩ }

/-! ## Theorems -/

/-- Accounting lemma for the transport clock: running a list of toggles from
any Running state subtracts exactly the paused time of that list from the
elapsed value. -/
theorem applyToggles_time (now : ℚ) :
    ∀ (ts : List ℚ) (t : Track), t.pause_time = none →
      (t.applyToggles ts).time now = t.time now - pausedSum ts now
  | [], t, h => by
      simp [Track.applyToggles, pausedSum]
  | [t1], t, h => by
      simp [Track.applyToggles, Track.toggle_pause, h, Track.time, pausedSum]
      ring
  | t1 :: t2 :: rest, t, h => by
      have ih := applyToggles_time now rest
        { t with pause_time := none,
                 pause_duration := t.pause_duration + (t2 - t1) } rfl
      simp only [Track.applyToggles, Track.toggle_pause, h] at ih ⊢
      rw [ih]
      simp [Track.time, h, pausedSum]
      ring

/-- Claim C2: the transport clock's `elapsed()` is `now − start −
accumulated_pause` while Running and `now − start − (now − pause_start) −
accumulated_pause` while Paused; elapsed is monotonically non-decreasing
while Running and frozen at the pause instant while Paused; and after any
sequence of pause/resume toggles following a reset, elapsed equals wall time
since the reset minus the total paused time. -/
theorem C2_transport_clock :
    (∀ (t : Track) (now : ℚ), t.pause_time = none →
        t.time now = (now - t.start_time) - t.pause_duration) ∧
    (∀ (t : Track) (p now : ℚ), t.pause_time = some p →
        t.time now = (now - t.start_time) - (now - p) - t.pause_duration) ∧
    (∀ (t : Track) (n1 n2 : ℚ), t.pause_time = none → n1 ≤ n2 →
        t.time n1 ≤ t.time n2) ∧
    (∀ (t : Track) (p n1 n2 : ℚ), t.pause_time = some p →
        t.time n1 = (p - t.start_time) - t.pause_duration ∧
          t.time n1 = t.time n2) ∧
    (∀ (t : Track) (t0 : ℚ) (ts : List ℚ) (now : ℚ),
        ((t.reset t0).applyToggles ts).time now = (now - t0) - pausedSum ts now) := by
  refine ⟨?_, ?_, ?_, ?_, ?_⟩
  · intro t now h; simp [Track.time, h]
  · intro t p now h; simp [Track.time, h]
  · intro t n1 n2 h hle; simp only [Track.time, h]; linarith
  · intro t p n1 n2 h; constructor <;> (simp only [Track.time, h]; ring)
  · intro t t0 ts now
    have h := applyToggles_time now ts (t.reset t0) rfl
    rw [h]
    simp [Track.reset, Track.time]

/-- Witness for C2 at concrete clocks: a Running clock is monotone between
instants 5 and 7, and a Paused clock reads the same value at instants 7 and
10. -/
theorem C2_transport_clock_witness :
    Track.time ⟨0, none, 1⟩ 5 ≤ Track.time ⟨0, none, 1⟩ 7 ∧
    Track.time ⟨0, some 3, 1⟩ 10 = Track.time ⟨0, some 3, 1⟩ 7 :=
  ⟨C2_transport_clock.2.2.1 ⟨0, none, 1⟩ 5 7 rfl (by norm_num),
   ((C2_transport_clock.2.2.2.1 ⟨0, some 3, 1⟩ 3 10 7 rfl).2)⟩

/-- Claim C5: for a start index within bounds (0 ≤ i ≤ length), the rotation
helper returns `xs[i..] ++ xs[..i]`; index 0 and index = length both return
the original list. -/
theorem C5_rotation (xs : List AudioFile) (i : Nat) (h : i ≤ xs.length) :
    get_wrapped_music_list xs i = xs.drop i ++ xs.take i ∧
    get_wrapped_music_list xs 0 = xs ∧
    get_wrapped_music_list xs xs.length = xs := by
  refine ⟨?_, ?_, ?_⟩ <;> simp [get_wrapped_music_list, h]

/-- Witness for C5 at `[A,B,C,D]`: index 2 gives `[C,D,A,B]`, index 0 and
index 4 (= length) give back the original list. -/
theorem C5_rotation_witness :
    2 ≤ ([fileA, fileB, fileC, fileD] : List AudioFile).length ∧
    get_wrapped_music_list [fileA, fileB, fileC, fileD] 2 =
      [fileC, fileD, fileA, fileB] ∧
    get_wrapped_music_list [fileA, fileB, fileC, fileD] 0 =
      [fileA, fileB, fileC, fileD] ∧
    get_wrapped_music_list [fileA, fileB, fileC, fileD] 4 =
      [fileA, fileB, fileC, fileD] := by
  have h := C5_rotation [fileA, fileB, fileC, fileD] 2 (by decide)
  exact ⟨by decide, h.1.trans (by decide), h.2.1, h.2.2⟩

/-- Claim C10: for a start index strictly greater than the length, both
slice extractions yield `None`, default to the empty slice, and the helper
returns the empty list. -/
theorem C10_rotation_overflow (xs : List AudioFile) (i : Nat)
    (h : xs.length < i) : get_wrapped_music_list xs i = [] := by
  have h' : ¬ i ≤ xs.length := Nat.not_le.mpr h
  simp [get_wrapped_music_list, h']

/-- Witness for C10: a one-element list with start index 2 yields `[]`. -/
theorem C10_rotation_overflow_witness :
    ([fileA] : List AudioFile).length < 2 ∧
    get_wrapped_music_list [fileA] 2 = [] :=
  ⟨by decide, C10_rotation_overflow [fileA] 2 (by decide)⟩

/-- Counterexample to C1 as stated: on a controller whose currently-playing
is `None` but whose queue still holds `fileA` (the state one poll after a
natural completion), `enqueue([fileB])` starts the old queue head `fileA`,
not the first enqueued track `fileB`; and `enqueue([])` on that controller
does not leave currently-playing `None` either. -/
theorem C1_counterexample :
    idleWithQueue.currently_playing = none ∧
    (AudioInterface.append_to_queue fsAllOk 1 idleWithQueue [fileB]).map
        (fun s => s.currently_playing) = some (some fileA) ∧
    fileA ≠ fileB ∧
    (AudioInterface.append_to_queue fsAllOk 1 idleWithQueue []).map
        (fun s => s.currently_playing) = some (some fileA) := by
  refine ⟨rfl, by decide, by decide, by decide⟩

/-- Claim C1, amended: on a controller with currently-playing `None` AND an
empty queue, when the first enqueued track's file decodes, `enqueue(ts)`
appends `ts` and immediately advances: currently-playing becomes `ts[0]` and
the queue becomes `ts[1..]`; in particular `enqueue([])` leaves it idle. -/
theorem C1_enqueue_idle (fs : String → FileRes) (now : ℚ)
    (s : AudioInterface) (ts : List AudioFile)
    (h1 : s.currently_playing = none) (h2 : s.queue = [])
    (h3 : ∀ a, ts.head? = some a → fs a.path = FileRes.ok) :
    ∃ s1, s.append_to_queue fs now ts = some s1 ∧
      s1.currently_playing = ts.head? ∧ s1.queue = ts.tail := by
  cases ts with
  | nil =>
      refine ⟨{ s with queue := s.queue ++ [] }, ?_, by simp [h1], by simp [h2]⟩
      simp [AudioInterface.append_to_queue, AudioInterface.play_next, h1, h2]
  | cons a rest =>
      have ha : fs a.path = FileRes.ok := h3 a rfl
      cases hp : s.pause <;>
        simp [AudioInterface.append_to_queue, AudioInterface.play_next,
          AudioInterface.play, Sink.stop, Sink.append, Sink.play,
          h1, h2, ha, hp]

/-- Witness for the amended C1: `enqueue([A,B])` on the fully idle
controller ends with currently-playing = A and queue = [B]. -/
theorem C1_enqueue_idle_witness :
    ∃ s1, AudioInterface.append_to_queue fsAllOk 1 idleEmpty [fileA, fileB]
        = some s1 ∧
      s1.currently_playing = some fileA ∧ s1.queue = [fileB] := by
  have h := C1_enqueue_idle fsAllOk 1 idleEmpty [fileA, fileB] rfl rfl
    (fun a ha => by cases ha; rfl)
  simpa using h

/-- Claim C3: on a controller whose sink is empty while a track is recorded
playing, `poll()` only clears currently-playing (queue, sink, pause flag and
clock untouched — nothing starts); a second `poll()`, with the sink still
empty and the queue non-empty, pops the head and starts it. -/
theorem C3_two_tick_completion (fs : String → FileRes) (now now' : ℚ)
    (s : AudioInterface) (t : AudioFile)
    (hempty : s.sink.empty = true) (hplaying : s.currently_playing = some t) :
    ∃ s1, s.handle_queue fs now = some s1 ∧
      s1.currently_playing = none ∧ s1.queue = s.queue ∧ s1.sink = s.sink ∧
      s1.pause = s.pause ∧ s1.track = s.track ∧
      (∀ x rest, s1.queue = x :: rest → fs x.path = FileRes.ok →
        ∃ s2, s1.handle_queue fs now' = some s2 ∧
          s2.currently_playing = some x ∧ s2.queue = rest ∧
          s2.sink.hasAudio = true) := by
  refine ⟨{ s with currently_playing := none }, ?_, rfl, rfl, rfl, rfl, rfl, ?_⟩
  · simp [AudioInterface.handle_queue, hempty, hplaying]
  · intro x rest hq hok
    have hq' : s.queue = x :: rest := hq
    cases hp : s.pause <;>
      simp [AudioInterface.handle_queue, AudioInterface.get_next,
        AudioInterface.play_next, AudioInterface.play, Sink.stop, Sink.append,
        Sink.play, hempty, hq', hok, hp]

/-- Witness for C3: concrete two-tick run from `sCompleted` (sink empty,
`fileA` recorded playing, `fileB` queued). -/
theorem C3_two_tick_completion_witness :
    ∃ s1, sCompleted.handle_queue fsAllOk 1 = some s1 ∧
      s1.currently_playing = none ∧
      ∃ s2, s1.handle_queue fsAllOk 2 = some s2 ∧
        s2.currently_playing = some fileB ∧ s2.queue = [] ∧
        s2.sink.hasAudio = true := by
  obtain ⟨s1, h1, hnone, hq, hsink, hpause, htrack, hnext⟩ :=
    C3_two_tick_completion fsAllOk 1 2 sCompleted fileA rfl rfl
  obtain ⟨s2, h2, hx, hrest, haudio⟩ :=
    hnext fileB [] (hq.trans rfl) rfl
  exact ⟨s1, h1, hnone, s2, h2, hx, hrest, haudio⟩

/-- Claim C4 evaluated at the failing input: the decode-and-play step does
return the typed error to its caller, but the internal advance `play_next`
(and hence `enqueue`) unwraps it and panics (`none`) instead of propagating
it — the claim's "never panics" is violated by the code. -/
theorem C4_advance_panics :
    AudioInterface.play fsDecodeFail idleWithQueue fileA.path
        = Except.error PlayError.decodeError ∧
    AudioInterface.play_next fsDecodeFail 0 idleWithQueue = none ∧
    AudioInterface.append_to_queue fsDecodeFail 0 idleEmpty [fileA] = none := by
  refine ⟨rfl, by decide, by decide⟩

/-- Claim C7: after `clear_and_stop()` the queue is empty, nothing is
recorded playing and the sink is empty; an immediately following `poll()`
succeeds and still reports currently-playing `None` and an empty queue. -/
theorem C7_clear_then_poll (fs : String → FileRes) (now : ℚ)
    (s : AudioInterface) :
    s.hard_clear_queue.queue = [] ∧
    s.hard_clear_queue.currently_playing = none ∧
    s.hard_clear_queue.sink.empty = true ∧
    ∃ s2, s.hard_clear_queue.handle_queue fs now = some s2 ∧
      s2.currently_playing = none ∧ s2.queue = [] := by
  refine ⟨rfl, rfl, rfl, ?_⟩
  exact ⟨_, rfl, rfl, rfl⟩

/-- Claim C8 evaluated: with a single enumerated output device, a configured
index of 1 makes the startup device lookup `&self.devices[index]` go out of
range and panic (`none`) — the system crashes instead of falling back to a
default device; a valid index 0 selects the device. -/
theorem C8_out_of_range_panics :
    main_select_device ["default"] 1 = none ∧
    main_select_device ["default"] 0 = some "default" := by
  refine ⟨rfl, rfl⟩

/-- The internal advance preserves the pause-flag/clock invariant: when it
pops a track it resets the clock to Running and clears the flag, and when
the queue is empty it changes nothing. -/
theorem play_next_pauseClockInv (fs : String → FileRes) (now : ℚ)
    (s s1 : AudioInterface) (h : pauseClockInv s)
    (hp : AudioInterface.play_next fs now s = some s1) : pauseClockInv s1 := by
  unfold AudioInterface.play_next at hp
  cases hqe : s.queue with
  | nil =>
      rw [hqe] at hp
      simp only [Option.some.injEq] at hp
      exact hp ▸ h
  | cons a rest =>
      rw [hqe] at hp
      cases hpause : s.pause <;> simp only [hpause] at hp <;>
        cases hfa : fs a.path <;>
          simp [AudioInterface.play, Sink.stop, Sink.append, Sink.play,
            hfa] at hp <;>
          simp [pauseClockInv, ← hp, Track.reset]

/-- Claim C6: assuming the pause flag currently agrees with the clock's
sub-state, every public controller operation preserves that agreement, and
`toggle_pause` flips the flag and the clock sub-state in lock-step. -/
theorem C6_pause_invariant (fs : String → FileRes) (now : ℚ)
    (s : AudioInterface) (ts : List AudioFile) (h : pauseClockInv s) :
    pauseClockInv (AudioInterface.toggle_pause now s) ∧
    (AudioInterface.toggle_pause now s).pause = !s.pause ∧
    (AudioInterface.toggle_pause now s).track.pause_time.isSome
        = !s.track.pause_time.isSome ∧
    pauseClockInv s.hard_clear_queue ∧
    (∀ s1, s.append_to_queue fs now ts = some s1 → pauseClockInv s1) ∧
    (∀ s1, s.handle_queue fs now = some s1 → pauseClockInv s1) := by
  refine ⟨?_, ?_, ?_, h, ?_, ?_⟩
  · cases hpt : s.track.pause_time with
    | none =>
        have hp : s.pause = false := by simpa [pauseClockInv, hpt] using h
        simp [pauseClockInv, AudioInterface.toggle_pause, Track.toggle_pause,
          hpt, hp]
    | some p =>
        have hp : s.pause = true := by simpa [pauseClockInv, hpt] using h
        simp [pauseClockInv, AudioInterface.toggle_pause, Track.toggle_pause,
          hpt, hp]
  · cases hpause : s.pause <;>
      simp [AudioInterface.toggle_pause, hpause]
  · cases hpt : s.track.pause_time <;> cases hpause : s.pause <;>
      simp [AudioInterface.toggle_pause, Track.toggle_pause, hpt, hpause]
  · intro s1 hs1
    unfold AudioInterface.append_to_queue at hs1
    cases hcp : s.currently_playing with
    | some a =>
        simp [hcp] at hs1
        rw [← hs1]
        exact h
    | none =>
        simp [hcp] at hs1
        exact play_next_pauseClockInv fs now
          { s with queue := s.queue ++ ts, currently_playing := none } s1 h hs1
  · intro s1 hs1
    unfold AudioInterface.handle_queue at hs1
    cases hse : s.sink.empty <;> cases hcp : s.currently_playing <;>
      simp [hse, hcp] at hs1
    · rw [← hs1]; exact h
    · rw [← hs1]; exact h
    · exact play_next_pauseClockInv fs now
        { s with currently_playing := s.get_next } s1 h hs1
    · rw [← hs1]; exact h

/-- Witness for C6 at the concrete paused controller `sPaused` (flag true,
clock paused): toggling keeps the invariant and clears the flag. -/
theorem C6_pause_invariant_witness :
    pauseClockInv (AudioInterface.toggle_pause 3 sPaused) ∧
    (AudioInterface.toggle_pause 3 sPaused).pause = false := by
  have h := C6_pause_invariant fsAllOk 3 sPaused [] rfl
  exact ⟨h.1, h.2.1.trans rfl⟩

/-- Claim C9: `clear_and_stop()` leaves the pause flag, the transport clock
and the device registry untouched (it only changes queue, sink and
currently-playing); a later advance on a repopulated queue is what resets
the clock to `now` and clears the flag. -/
theorem C9_clear_frame (s : AudioInterface) :
    s.hard_clear_queue.pause = s.pause ∧
    s.hard_clear_queue.track = s.track ∧
    s.hard_clear_queue.devices = s.devices ∧
    (∀ (fs : String → FileRes) (now : ℚ) (x : AudioFile)
        (xs : List AudioFile) (s1 : AudioInterface),
      AudioInterface.play_next fs now
          { s.hard_clear_queue with queue := x :: xs } = some s1 →
      s1.pause = false ∧ s1.track.pause_time = none ∧
        s1.track.start_time = now) := by
  refine ⟨rfl, rfl, rfl, ?_⟩
  intro fs now x xs s1 hp
  simp only [AudioInterface.play_next, AudioInterface.hard_clear_queue] at hp
  cases hpause : s.pause <;> simp only [hpause] at hp <;>
    cases hfa : fs x.path <;>
      simp [AudioInterface.play, Sink.stop, Sink.append, Sink.play,
        hfa] at hp <;>
      simp [← hp, Track.reset]

/-- Witness for C9: clearing the paused controller `sPaused` keeps its pause
flag true and its paused clock intact, and a subsequent advance of `fileA`
at instant 5 clears the flag and restarts the clock. -/
theorem C9_clear_frame_witness :
    sPaused.hard_clear_queue.pause = true ∧
    sPaused.hard_clear_queue.track = sPaused.track ∧
    ∃ s1, AudioInterface.play_next fsAllOk 5
        { sPaused.hard_clear_queue with queue := [fileA] } = some s1 ∧
      s1.pause = false := by
  have h := C9_clear_frame sPaused
  obtain ⟨s1, hs1⟩ : ∃ s1, AudioInterface.play_next fsAllOk 5
      { sPaused.hard_clear_queue with queue := [fileA] } = some s1 := ⟨_, rfl⟩
  exact ⟨h.1, h.2.1, s1, hs1, (h.2.2.2 fsAllOk 5 fileA [] s1 hs1).1⟩

end Rmus
